import Mathlib

/-!
# Verification of the aoi.mongo key/value storage layer

Shallow embedding of the two `Database` class variants of the repository:

* variant A: `src/classes/Database.js`
* variant B: `src/unnamed/part_000`

Both sit between an application's variable-access API and MongoDB, with an
in-memory per-table cache.  All operations here are modelled per table: a
`TableState` holds the table's cache (a JS `Map`, modelled as an ordered
association list) and the table's persistent collections (an ordered
association list from collection name to its document list).  The variable
registry (`client.variableManager`) is modelled as an association list from
declared key to its default value.

JavaScript values are modelled by `JsVal`; `JsVal.undef` plays the role of
`undefined`, so a cache lookup that misses returns `JsVal.undef` exactly as
`Map.prototype.get` does.  Runtime exceptions (`ReferenceError` on an
undeclared identifier, `TypeError` on calling a non-function, MongoDB errors)
are modelled by `JsError`, and stateful operations return the error together
with the state reached at the throw point.
-/

namespace AoiMongo

/-- A JavaScript value, as far as the storage layer inspects one:
`undef` is `undefined`, `null` is JS `null`; numeric data is modelled
with integers (the claims only exercise integer-valued data). -/
inductive JsVal where
  | undef : JsVal
  | null : JsVal
  | num (n : Int) : JsVal
  | str (s : String) : JsVal
  | bool (b : Bool) : JsVal
deriving DecidableEq, Repr

/-- A persisted document `{key: compositeKey, value: V}` (the MongoDB `_id`
field is never inspected by the layer and is omitted). -/
structure Doc where
  key : String
  value : JsVal
deriving DecidableEq, Repr

/-- A table's cache: the underlying JS `Map` of a cache group, as an ordered
association list (insertion order preserved, keys unique under `cacheSet`). -/
abbrev Cache := List (String × JsVal)

/-- A table's persistent side: MongoDB collections of the table's database,
in enumeration order, each with its documents in insertion order. -/
abbrev Store := List (String × List Doc)

/-- The state of one table: its cache and its persistent collections. -/
structure TableState where
  cache : Cache
  store : Store
deriving DecidableEq, Repr

/-- The variable registry for one table: declared key name to its default
value; a default of `JsVal.undef` models `variableManager.get(k, t)?.default`
being `undefined`. -/
abbrev Registry := List (String × JsVal)

/-- A JS runtime exception observed by the layer. -/
inductive JsError where
  | referenceError (name : String) : JsError
  | typeError (msg : String) : JsError
  | mongoError (msg : String) : JsError
deriving DecidableEq, Repr

/-- `Map.prototype.get`: the stored value, or `undefined` when absent. -/
def cacheGet (c : Cache) (k : String) : JsVal :=
  match c.find? (fun e => e.fst == k) with
  | some e => e.snd
  | none => JsVal.undef

/-- `Map.prototype.set`: overwrite in place when the key exists, else append. -/
def cacheSet (c : Cache) (k : String) (v : JsVal) : Cache :=
  if c.any (fun e => e.fst == k) then
    c.map (fun e => if e.fst == k then (k, v) else e)
  else c ++ [(k, v)]

/-- `Map.prototype.delete`: remove every entry with the given key. -/
def cacheDelete (c : Cache) (k : String) : Cache :=
  c.filter (fun e => e.fst != k)

/-- `variableManager.has(key, table)`. -/
def regHas (r : Registry) (k : String) : Bool :=
  r.any (fun e => e.fst == k)

/-- `variableManager.get(key, table)?.default`, collapsing a missing entry and
an `undefined` default to `JsVal.undef`. -/
def regDefault (r : Registry) (k : String) : JsVal :=
  match r.find? (fun e => e.fst == k) with
  | some e => e.snd
  | none => JsVal.undef

/-- `db(table).collection(name).findOne({key: k})`: `null` (here `none`) when
the collection does not exist or holds no matching document, else the first
matching document. -/
def storeFindOne (st : Store) (colName : String) (k : String) : Option Doc :=
  match st.find? (fun c => c.fst == colName) with
  | some c => c.snd.find? (fun d => d.key == k)
  | none => none

/-- Replace the value of the first document matching `k` (MongoDB
`updateOne` touches only the first match). -/
def colUpdateFirst (docs : List Doc) (k : String) (v : JsVal) : List Doc :=
  match docs with
  | [] => []
  | d :: rest =>
    if d.key == k then { key := k, value := v } :: rest
    else d :: colUpdateFirst rest k v

/-- One collection's view of `updateOne({key: k}, {$set: {value: v}},
{upsert: true})`: replace the first match, or insert when absent. -/
def colUpsert (docs : List Doc) (k : String) (v : JsVal) : List Doc :=
  if docs.any (fun d => d.key == k) then colUpdateFirst docs k v
  else docs ++ [{ key := k, value := v }]

/-- `updateOne(..., {upsert: true})` on the named collection; MongoDB creates
the collection implicitly on first write. -/
def storeUpsert (st : Store) (colName : String) (k : String) (v : JsVal) : Store :=
  if st.any (fun c => c.fst == colName) then
    st.map (fun c => if c.fst == colName then (colName, colUpsert c.snd k v) else c)
  else st ++ [(colName, [{ key := k, value := v }])]

/-- JS truthiness of the optional `id` / `variable` argument: `undefined` and
the empty string are falsy. -/
def idTruthy : Option String → Bool
  | some s => s != ""
  | none => false

/-- JS template-literal rendering of the optional `id`: `undefined` prints as
the string "undefined". -/
def idToStr : Option String → String
  | some s => s
  | none => "undefined"

/-- The system keys `aoijs_vars` that bypass the variable registry. -/
def aoijsVars : List String := ["cooldown", "setTimeout", "ticketChannel"]

/-- Composite key of `Database.get` in variant A (src/classes/Database.js
lines 109-110): `let cacheKey = key; if (id) cacheKey = key + "_" + id`. -/
def getAKey (key : String) (id : Option String) : String :=
  if idTruthy id then key ++ "_" ++ idToStr id else key

/-- Composite key of `Database.set` in variant A (src/classes/Database.js
lines 160-161), computed the same conditional way. -/
def setAKey (key : String) (id : Option String) : String :=
  if idTruthy id then key ++ "_" ++ idToStr id else key

/-- Composite key of `Database.delete` in variant A (src/classes/Database.js
lines 246-247): `let dbkey = key; if (id) dbkey = key + "_" + id`. -/
def deleteAKey (key : String) (id : Option String) : String :=
  if idTruthy id then key ++ "_" ++ idToStr id else key

/-- Composite key of `Database.get` in variant B (src/unnamed/part_000 line
110): the template literal `key + "_" + id`, unconditionally. -/
def getBKey (key : String) (id : Option String) : String :=
  key ++ "_" ++ idToStr id

/-- Composite key of `Database.set` in variant B (src/unnamed/part_000 line
144), also unconditional. -/
def setBKey (key : String) (id : Option String) : String :=
  key ++ "_" ++ idToStr id

/-- Composite key of `Database.delete` in variant B (src/unnamed/part_000
line 213), also unconditional. -/
def deleteBKey (key : String) (id : Option String) : String :=
  key ++ "_" ++ idToStr id

/-- JS nullish coalescing `a ?? b`: `b` when `a` is `undefined` or `null`. -/
def jsNullish (a b : JsVal) : JsVal :=
  match a with
  | JsVal.undef => b
  | JsVal.null => b
  | v => v

/-- What a `get` call hands back to the caller: `undefined` (a bare
`return;`), JS `null` (a missed `findOne` returned as-is), or a
`{key, value}` record. -/
inductive GetRet where
  | undef : GetRet
  | nullv : GetRet
  | record (d : Doc) : GetRet
deriving DecidableEq, Repr

/-- Result of a `get` call, instrumented with its effects: the returned
value, the state after the call, and how many collection reads
(`findOne`) and cache writes (`cache.set`) it performed. -/
structure GetResult where
  ret : GetRet
  state : TableState
  storeReads : Nat
  cacheWrites : Nat
deriving DecidableEq, Repr

/-- `Database.get` of variant A (src/classes/Database.js lines 108-156):
cache first; on a miss, system keys read their collection with a `null`-valued
record as fallback, declared keys read their collection with the registry
default as fallback (populating the cache either way), and unknown keys
return `undefined` untouched. -/
def getA (reg : Registry) (s : TableState) (key : String) (id : Option String) :
    GetResult :=
  let cacheKey := getAKey key id
  let cachedValue := cacheGet s.cache cacheKey
  if cachedValue != JsVal.undef then
    { ret := GetRet.record { key := cacheKey, value := cachedValue },
      state := s, storeReads := 0, cacheWrites := 0 }
  else if aoijsVars.contains key then
    match storeFindOne s.store key cacheKey with
    | some d =>
      { ret := GetRet.record { key := cacheKey, value := d.value },
        state := { s with cache := cacheSet s.cache cacheKey d.value },
        storeReads := 1, cacheWrites := 1 }
    | none =>
      { ret := GetRet.record { key := cacheKey, value := JsVal.null },
        state := s, storeReads := 1, cacheWrites := 0 }
  else if !(regHas reg key) then
    { ret := GetRet.undef, state := s, storeReads := 0, cacheWrites := 0 }
  else
    match storeFindOne s.store key cacheKey with
    | some d =>
      { ret := GetRet.record { key := cacheKey, value := d.value },
        state := { s with cache := cacheSet s.cache cacheKey d.value },
        storeReads := 1, cacheWrites := 1 }
    | none =>
      let dflt := regDefault reg key
      { ret := GetRet.record { key := cacheKey, value := dflt },
        state := { s with cache := cacheSet s.cache cacheKey dflt },
        storeReads := 1, cacheWrites := 1 }

/-- `Database.get` of variant B (src/unnamed/part_000 lines 109-136): system
keys return the raw `findOne` result (the document, or JS `null` on a miss);
declared keys return cache-value-or-default without any store access; unknown
keys return `undefined`.  The cache is never written. -/
def getB (reg : Registry) (s : TableState) (key : String) (id : Option String) :
    GetResult :=
  let cacheKey := getBKey key id
  if aoijsVars.contains key then
    match storeFindOne s.store key cacheKey with
    | some d =>
      { ret := GetRet.record d, state := s, storeReads := 1, cacheWrites := 0 }
    | none =>
      { ret := GetRet.nullv, state := s, storeReads := 1, cacheWrites := 0 }
  else if !(regHas reg key) then
    { ret := GetRet.undef, state := s, storeReads := 0, cacheWrites := 0 }
  else
    let dflt := regDefault reg key
    let value := jsNullish (cacheGet s.cache cacheKey) dflt
    { ret := GetRet.record { key := cacheKey, value := value },
      state := s, storeReads := 0, cacheWrites := 0 }

/-- Result of a stateful operation that returns no value: the exception it
raised (if any) and the state reached when the call finished or threw. -/
structure OpResult where
  error : Option JsError
  state : TableState
deriving DecidableEq, Repr

/-- `Database.set` of variant A (src/classes/Database.js lines 159-177):
after computing the composite key, the function evaluates
`this.client.cacheManager.caches["Group"][cacheName]`, but `cacheName` is
never declared anywhere in this function (unlike `get`, `drop`, `delete` and
`deleteMany`, which each declare it locally), so a `ReferenceError` is raised
before the cache write and before the `updateOne` upsert; neither store is
touched. -/
def setA (s : TableState) (key : String) (id : Option String) (_value : JsVal) :
    OpResult :=
  let _cacheKey := setAKey key id
  { error := some (JsError.referenceError "cacheName"), state := s }

/-- `Database.set` of variant B (src/unnamed/part_000 lines 139-157):
write-through — `cache.set(cacheKey, value)` on the table's cache, then
`updateOne({key: cacheKey}, {$set: {value}}, {upsert: true})` on the
collection named by the raw key. -/
def setB (s : TableState) (key : String) (id : Option String) (value : JsVal) :
    OpResult :=
  let cacheKey := setBKey key id
  { error := none,
    state :=
      { cache := cacheSet s.cache cacheKey value,
        store := storeUpsert s.store key cacheKey value } }

/-- `Database.drop` of variant A (src/classes/Database.js lines 179-199):
drop the named collection (MongoDB raises "ns not found" when it does not
exist) or, with no `variable` argument, drop the whole database; then delete
every key of the table's cache. -/
def dropA (s : TableState) (varName : Option String) : OpResult :=
  if idTruthy varName then
    let v := idToStr varName
    if s.store.any (fun c => c.fst == v) then
      { error := none,
        state := { cache := [], store := s.store.filter (fun c => c.fst != v) } }
    else
      { error := some (JsError.mongoError "ns not found"), state := s }
  else
    { error := none, state := { cache := [], store := [] } }

/-- `Database.drop` of variant B (src/unnamed/part_000 lines 159-174): drop
the named collection or the whole database as in variant A, but the cache
line `delete this.client.cacheManager.caches("Group", ...)` calls the
`caches` object as a function, raising a `TypeError` after the store drop and
before any cache entry is removed: the cache is left untouched. -/
def dropB (s : TableState) (varName : Option String) : OpResult :=
  if idTruthy varName then
    let v := idToStr varName
    if s.store.any (fun c => c.fst == v) then
      { error := some (JsError.typeError "caches is not a function"),
        state := { cache := s.cache, store := s.store.filter (fun c => c.fst != v) } }
    else
      { error := some (JsError.mongoError "ns not found"), state := s }
  else
    { error := some (JsError.typeError "caches is not a function"),
      state := { cache := s.cache, store := [] } }

/-- `key.split("_")[0]`: the key-name a composite cache key is reduced to
before `deleteMany` consults the registry and the predicate. -/
def derivedName (k : String) : String :=
  (k.splitOn "_").headD ""

/-- The one `query` argument of `deleteMany`, in its two uses: evaluated as a
predicate on the derived key-name of a cache entry, and issued against every
collection as the store-level delete filter on documents. -/
structure DMQuery where
  namePred : String → Bool
  docPred : Doc → Bool

/-- The `keysToDelete` loop of `Database.deleteMany`: walk the cache entries,
derive each entry's key-name, and collect the entry's cache key when the
registry declares that name (`variableManager.has`), the declared default is
not `undefined` (`if (__var === undefined) continue`), and the predicate
accepts the name (`if (query && query(cacheKey))`). -/
def dmKeysToDelete (reg : Registry) (q : DMQuery) (cache : Cache) : List String :=
  cache.filterMap (fun e =>
    let nm := derivedName e.fst
    if regHas reg nm then
      if regDefault reg nm != JsVal.undef then
        if q.namePred nm then some e.fst else none
      else none
    else none)

/-- `Database.deleteMany` with `debug` off, identical in both variants
(src/classes/Database.js lines 201-243, src/unnamed/part_000 lines 176-205):
collect `keysToDelete` from the cache, delete those entries, then run
`deleteMany(query)` on every collection of the table. -/
def deleteManyCore (reg : Registry) (s : TableState) (q : DMQuery) : TableState :=
  { cache := (dmKeysToDelete reg q s.cache).foldl (fun acc k => cacheDelete acc k) s.cache,
    store := s.store.map (fun c => (c.fst, c.snd.filter (fun d => !(q.docPred d)))) }

/-- `deleteOne({key: k})` on one collection: remove only the first match. -/
def colDeleteFirst (docs : List Doc) (k : String) : List Doc :=
  match docs with
  | [] => []
  | d :: rest => if d.key == k then rest else d :: colDeleteFirst rest k

/-- The collection scan of `Database.delete` in variant A
(src/classes/Database.js lines 253-270): find the first collection holding a
document with the composite key, `deleteOne` it there, evict the cache entry,
and stop. -/
def deleteScanA (cache : Cache) (dbkey : String) : Store → Cache × Store
  | [] => (cache, [])
  | (nm, docs) :: rest =>
    if docs.any (fun d => d.key == dbkey) then
      (cacheDelete cache dbkey, (nm, colDeleteFirst docs dbkey) :: rest)
    else
      let r := deleteScanA cache dbkey rest
      (r.fst, (nm, docs) :: r.snd)

/-- `Database.delete` of variant A. -/
def deleteA (s : TableState) (key : String) (id : Option String) : TableState :=
  let r := deleteScanA s.cache (deleteAKey key id) s.store
  { cache := r.fst, store := r.snd }

/-- The collection scan of `Database.delete` in variant B
(src/unnamed/part_000 lines 217-235): as in variant A, but a collection left
with zero documents after the `deleteOne` is dropped. -/
def deleteScanB (cache : Cache) (dbkey : String) : Store → Cache × Store
  | [] => (cache, [])
  | (nm, docs) :: rest =>
    if docs.any (fun d => d.key == dbkey) then
      let docs2 := colDeleteFirst docs dbkey
      if docs2.isEmpty then (cacheDelete cache dbkey, rest)
      else (cacheDelete cache dbkey, (nm, docs2) :: rest)
    else
      let r := deleteScanB cache dbkey rest
      (r.fst, (nm, docs) :: r.snd)

/-- `Database.delete` of variant B. -/
def deleteB (s : TableState) (key : String) (id : Option String) : TableState :=
  let r := deleteScanB s.cache (deleteBKey key id) s.store
  { cache := r.fst, store := r.snd }

/-- Truthiness of the `limit` argument of `findMany`: `if (limit)` skips the
truncation when `limit` is absent or `0`. -/
def limitTruthy : Option Nat → Bool
  | some n => n != 0
  | none => false

/-- `Database.findMany`, identical in both variants (src/classes/Database.js
lines 281-305, src/unnamed/part_000 lines 243-267): for each collection,
filter its documents (a predicate function is applied after `find({})`; a
native filter is applied by the store — both reduce to filtering by a
per-document test `q`), truncate that collection's result to `limit` when
`limit` is truthy, and concatenate across collections. -/
def findManyCore (st : Store) (q : Doc → Bool) (limit : Option Nat) : List Doc :=
  st.foldl (fun results c =>
    let data := c.snd.filter q
    let data := if limitTruthy limit then data.take (limit.getD 0) else data
    results ++ data) []

/-- JS numeric coercion of the values the layer stores, as used by the
`a.value - b.value` sort comparator: numbers are themselves, `null` is 0,
booleans are 0/1, integer-literal strings parse, and anything else (including
`undefined`) is NaN, modelled as `none`. -/
def jsNum : JsVal → Option Int
  | JsVal.num n => some n
  | JsVal.null => some 0
  | JsVal.bool b => some (if b then 1 else 0)
  | JsVal.str s => s.toInt?
  | JsVal.undef => none

/-- The comparator `a - b` on two stored values; a NaN result is treated as
`+0` by `Array.prototype.sort`, so it is collapsed to 0 here. -/
def jsCmpSub (a b : JsVal) : Int :=
  match jsNum a, jsNum b with
  | some x, some y => x - y
  | _, _ => 0

/-- Insert `x` before the first element `y` with `le x y` (the insertion step
of a stable sort: an element keeps its place among comparator-equal ones). -/
def insertLe (le : Doc → Doc → Bool) (x : Doc) : List Doc → List Doc
  | [] => [x]
  | y :: ys => if le x y then x :: y :: ys else y :: insertLe le x ys

/-- Stable sort with respect to `le a b` = "a may stay before b"
(`Array.prototype.sort` is required to be stable). -/
def stableSortBy (le : Doc → Doc → Bool) : List Doc → List Doc
  | [] => []
  | x :: xs => insertLe le x (stableSortBy le xs)

/-- "a may stay before b" under the ascending comparator
`(a, b) => a.value - b.value`: the comparator result is not positive. -/
def ascLe (a b : Doc) : Bool :=
  jsCmpSub a.value b.value ≤ 0

/-- "a may stay before b" under the descending comparator
`(a, b) => b.value - a.value`. -/
def descLe (a b : Doc) : Bool :=
  jsCmpSub b.value a.value ≤ 0

/-- `Database.all`, identical in both variants (src/classes/Database.js lines
307-330, src/unnamed/part_000 lines 269-292): load every document of every
collection, filter, concatenate, stable-sort by the numeric `value`
comparator for "asc"/"desc" (any other sort string leaves the concatenation
order), and truncate the merged result with `slice(0, list)`; `list`
defaults to 100 and `sort` to "asc". -/
def allCore (st : Store) (flt : Doc → Bool) (list : Nat := 100)
    (sortDir : String := "asc") : List Doc :=
  let results := st.foldl (fun acc c => acc ++ c.snd.filter flt) []
  let sorted :=
    if sortDir == "asc" then stableSortBy ascLe results
    else if sortDir == "desc" then stableSortBy descLe results
    else results
  sorted.take list

/-! ## Helper lemmas -/

/-- A cache read of a key just written returns the written value. -/
theorem cacheGet_cacheSet (c : Cache) (k : String) (v : JsVal) :
    cacheGet (cacheSet c k v) k = v := by
  induction c with
  | nil => simp [cacheSet, cacheGet]
  | cons e t ih =>
    by_cases he : e.1 = k
    · simp [cacheSet, cacheGet, he, List.find?]
    · have he' : (e.1 == k) = false := by simp [he]
      unfold cacheSet at ih ⊢
      simp only [List.any_cons, he', Bool.false_or]
      cases ht : t.any (fun e => e.fst == k) with
      | true =>
        simp [cacheGet, ht, he, he', List.find?_cons_of_neg] at ih ⊢
        exact ih
      | false =>
        simp [cacheGet, ht, he, he', List.find?_cons_of_neg] at ih ⊢
        exact ih

/-- After an upsert, the first document matching the key is the upserted one. -/
theorem find?_colUpsert (docs : List Doc) (k : String) (v : JsVal) :
    (colUpsert docs k v).find? (fun d => d.key == k) =
      some { key := k, value := v } := by
  induction docs with
  | nil => simp [colUpsert, List.find?]
  | cons d rest ih =>
    by_cases hd : d.key = k
    · simp [colUpsert, colUpdateFirst, hd, List.find?]
    · have hd' : (d.key == k) = false := by simp [hd]
      unfold colUpsert at ih ⊢
      simp only [List.any_cons, hd', Bool.false_or]
      cases ht : rest.any (fun d => d.key == k) with
      | true =>
        simp [colUpdateFirst, ht, hd, hd', List.find?_cons_of_neg] at ih ⊢
        exact ih
      | false =>
        simp [ht, hd, hd', List.find?_cons_of_neg] at ih ⊢
        exact ih

/-- A store read of a document just upserted returns the upserted record. -/
theorem storeFindOne_storeUpsert (st : Store) (colName k : String) (v : JsVal) :
    storeFindOne (storeUpsert st colName k v) colName k =
      some { key := k, value := v } := by
  induction st with
  | nil => simp [storeUpsert, storeFindOne, List.find?, find?_colUpsert]
  | cons c t ih =>
    by_cases hc : c.1 = colName
    · simp [storeUpsert, storeFindOne, hc, List.find?, find?_colUpsert]
    · have hc' : (c.1 == colName) = false := by simp [hc]
      unfold storeUpsert at ih ⊢
      simp only [List.any_cons, hc', Bool.false_or]
      cases ht : t.any (fun c => c.fst == colName) with
      | true =>
        simp [storeFindOne, ht, hc, hc', List.find?_cons_of_neg] at ih ⊢
        exact ih
      | false =>
        simp [storeFindOne, ht, hc, hc', List.find?_cons_of_neg] at ih ⊢
        exact ih

/-- The eviction condition of `deleteMany` as the claim states it: the
compositeKey-derived key-name is registry-declared with a defined default and
satisfies the predicate. -/
def dmEvicts (reg : Registry) (q : DMQuery) (k : String) : Bool :=
  regHas reg (derivedName k) && (regDefault reg (derivedName k) != JsVal.undef) &&
    q.namePred (derivedName k)

/-- The `keysToDelete` collection is exactly the cache keys satisfying the
eviction condition. -/
theorem dmKeysToDelete_eq (reg : Registry) (q : DMQuery) (c : Cache) :
    dmKeysToDelete reg q c =
      c.filterMap (fun e => if dmEvicts reg q e.fst then some e.fst else none) := by
  unfold dmKeysToDelete
  congr 1
  funext e
  unfold dmEvicts
  cases h1 : regHas reg (derivedName e.fst) <;>
    cases h2 : regDefault reg (derivedName e.fst) != JsVal.undef <;>
      cases h3 : q.namePred (derivedName e.fst) <;> simp [h1, h2, h3]

/-- Folding `Map.delete` over a list of keys removes exactly the entries
whose key is in the list. -/
theorem foldl_cacheDelete (ks : List String) (c : Cache) :
    List.foldl (fun acc k => cacheDelete acc k) c ks =
      c.filter (fun e => !(ks.contains e.fst)) := by
  induction ks generalizing c with
  | nil => simp
  | cons k t ih =>
    rw [List.foldl_cons, ih, cacheDelete, List.filter_filter]
    congr 1
    funext e
    cases he : e.fst == k <;>
        simp [List.contains_cons, he, bne, Bool.not_or, Bool.and_comm] <;>
      simp at he <;> simp [he]

/-- For a cache entry, membership of its key in `keysToDelete` is decided by
the eviction condition alone. -/
theorem contains_dmKeysToDelete (reg : Registry) (q : DMQuery) (c : Cache)
    (e : String × JsVal) (he : e ∈ c) :
    (dmKeysToDelete reg q c).contains e.fst = dmEvicts reg q e.fst := by
  rw [dmKeysToDelete_eq]
  cases hd : dmEvicts reg q e.fst with
  | true =>
    have hm : e.fst ∈ c.filterMap
        (fun e => if dmEvicts reg q e.fst then some e.fst else none) :=
      List.mem_filterMap.mpr ⟨e, he, by rw [if_pos hd]⟩
    exact List.elem_eq_true_of_mem hm
  | false =>
    refine Bool.eq_false_iff.mpr (fun hc => ?_)
    have hm := List.mem_of_elem_eq_true hc
    rcases List.mem_filterMap.mp hm with ⟨a, _, hfa⟩
    by_cases h : dmEvicts reg q a.fst = true
    · rw [if_pos h] at hfa
      have ha : a.fst = e.fst := Option.some.inj hfa
      rw [ha] at h
      rw [h] at hd
      exact Bool.noConfusion hd
    · rw [if_neg h] at hfa
      exact Option.noConfusion hfa

/-- The head of an insertion step is the inserted element or the old head. -/
theorem insertLe_head? (le : Doc → Doc → Bool) (x : Doc) (l : List Doc) :
    (insertLe le x l).head? = some x ∨ (insertLe le x l).head? = l.head? := by
  cases l with
  | nil => left; rfl
  | cons y ys =>
    unfold insertLe
    cases h : le x y with
    | true => left; simp [h]
    | false => right; simp [h]

/-- Inserting into a sorted list keeps it sorted, when `le` is total. -/
theorem chain'_insertLe (le : Doc → Doc → Bool)
    (htot : ∀ a b, le a b = false → le b a = true) (x : Doc) (l : List Doc)
    (h : List.Chain' (fun a b => le a b = true) l) :
    List.Chain' (fun a b => le a b = true) (insertLe le x l) := by
  induction l with
  | nil => simp [insertLe]
  | cons y ys ih =>
    unfold insertLe
    cases hxy : le x y with
    | true =>
      rw [if_pos rfl]
      exact List.chain'_cons.mpr ⟨hxy, h⟩
    | false =>
      rw [if_neg (by simp)]
      refine List.chain'_cons'.mpr ⟨?_, ih h.tail⟩
      intro z hz
      rcases insertLe_head? le x ys with hh | hh
      · rw [hh] at hz
        have hzx : x = z := by simpa using hz
        rw [← hzx]
        exact htot x y hxy
      · rw [hh] at hz
        cases ys with
        | nil => simp at hz
        | cons z0 zs =>
          have hz0 : z0 = z := by simpa using hz
          rw [← hz0]
          exact (List.chain'_cons.mp h).1

/-- The stable sort produces a list sorted with respect to a total `le`. -/
theorem chain'_stableSortBy (le : Doc → Doc → Bool)
    (htot : ∀ a b, le a b = false → le b a = true) (l : List Doc) :
    List.Chain' (fun a b => le a b = true) (stableSortBy le l) := by
  induction l with
  | nil => simp [stableSortBy]
  | cons x xs ih => exact chain'_insertLe le htot x _ ih

/-- The ascending comparator relation is total. -/
theorem ascLe_total (a b : Doc) : ascLe a b = false → ascLe b a = true := by
  unfold ascLe jsCmpSub
  cases jsNum a.value <;> cases jsNum b.value <;> (simp; try omega)

/-- The descending comparator relation is total. -/
theorem descLe_total (a b : Doc) : descLe a b = false → descLe b a = true := by
  unfold descLe jsCmpSub
  cases jsNum a.value <;> cases jsNum b.value <;> (simp; try omega)

/-- Folding list-append of a per-collection contribution equals flattening
the mapped contributions after the accumulator. -/
theorem foldl_append_eq_flatten (g : String × List Doc → List Doc) (st : Store)
    (acc : List Doc) :
    st.foldl (fun results c => results ++ g c) acc = acc ++ (st.map g).flatten := by
  induction st generalizing acc with
  | nil => simp
  | cons c t ih => simp [ih, List.append_assoc]

/-! ## Claim theorems -/

/-- C2: in the src/classes/Database.js variant, every call to
`set(table, key, id, value)` raises a `ReferenceError` (it reads the variable
`cacheName`, which is never defined in that function) before performing
either the cache write or the store upsert, so both the cache and the
persistent store are left unchanged by every `set` call. -/
theorem setA_always_raises_referenceError (s : TableState) (key : String)
    (id : Option String) (value : JsVal) :
    (setA s key id value).error = some (JsError.referenceError "cacheName") ∧
    (setA s key id value).state.cache = s.cache ∧
    (setA s key id value).state.store = s.store :=
  ⟨rfl, rfl, rfl⟩

/-- C1: read-after-write fails on the code.  In the src/classes/Database.js
variant, `set("t", "points", undefined, 1)` (with "points" declared with
default 0) raises `ReferenceError: cacheName is not defined` and leaves the
state unchanged, so the subsequent `get` returns the registry default 0, not
the written 1.  In the src/unnamed/part_000 variant `set` succeeds and an
immediate `get` sees the cache, but once the cache is cleared `get` ignores
the persisted document entirely and again returns the default 0. -/
theorem set_then_get_fails_at_failing_input :
    (setA { cache := [], store := [] } "points" none (JsVal.num 1)).error =
      some (JsError.referenceError "cacheName") ∧
    (setA { cache := [], store := [] } "points" none (JsVal.num 1)).state =
      { cache := [], store := [] } ∧
    (getA [("points", JsVal.num 0)]
        (setA { cache := [], store := [] } "points" none (JsVal.num 1)).state
        "points" none).ret =
      GetRet.record { key := "points", value := JsVal.num 0 } ∧
    JsVal.num 0 ≠ JsVal.num 1 ∧
    (setB { cache := [], store := [] } "points" none (JsVal.num 1)).state.store =
      [("points", [{ key := "points_undefined", value := JsVal.num 1 }])] ∧
    (getB [("points", JsVal.num 0)]
        { cache := [],
          store := [("points", [{ key := "points_undefined", value := JsVal.num 1 }])] }
        "points" none).ret =
      GetRet.record { key := "points_undefined", value := JsVal.num 0 } :=
  ⟨rfl, rfl, rfl, by decide, rfl, rfl⟩

/-- C3 counterexample: in the src/unnamed/part_000 variant the composite key
of `get` with an absent id is not the key alone — it is the key with the
literal suffix "_undefined". -/
theorem compositeKey_not_conditional_in_variantB :
    getBKey "score" none = "score_undefined" ∧ getBKey "score" none ≠ "score" :=
  ⟨rfl, by decide⟩

/-- C3 (amended): within src/classes/Database.js, `get`, `set` and `delete`
all compute the composite key by the same conditional rule — the key alone
when the id is absent/falsy, else key + "_" + id — and within
src/unnamed/part_000 all three instead always concatenate key + "_" +
String(id); in variant B the `set` path uses that one composite key for both
storage layers: the cache entry and the upserted document carry it. -/
theorem compositeKey_rule_uniform_per_variant (key : String) (id : Option String) :
    getAKey key id = setAKey key id ∧
    setAKey key id = deleteAKey key id ∧
    getAKey key id = (if idTruthy id then key ++ "_" ++ idToStr id else key) ∧
    getBKey key id = setBKey key id ∧
    setBKey key id = deleteBKey key id ∧
    getBKey key id = key ++ "_" ++ idToStr id ∧
    ∀ (s : TableState) (v : JsVal),
      cacheGet (setB s key id v).state.cache (setBKey key id) = v ∧
      storeFindOne (setB s key id v).state.store key (setBKey key id) =
        some { key := setBKey key id, value := v } := by
  refine ⟨rfl, rfl, rfl, rfl, rfl, rfl, fun s v => ⟨?_, ?_⟩⟩
  · exact cacheGet_cacheSet s.cache (setBKey key id) v
  · exact storeFindOne_storeUpsert s.store key (setBKey key id) v

/-- C9 counterexample: in the src/unnamed/part_000 variant, a `get` for the
system key "cooldown" with empty cache and empty store returns the raw
`findOne` result — JS `null` — and not the record
`{key: compositeKey, value: null}` the claim states. -/
theorem systemKey_miss_returns_raw_null_variantB :
    (getB [] { cache := [], store := [] } "cooldown" none).ret = GetRet.nullv ∧
    GetRet.nullv ≠ GetRet.record { key := "cooldown_undefined", value := JsVal.null } :=
  ⟨rfl, by decide⟩

/-- C9 (amended): for a system key with no cache entry and no stored document
for the composite key, the src/classes/Database.js variant returns the record
`{key: compositeKey, value: null}` without touching the state (no
default-value fallback is consulted), while the src/unnamed/part_000 variant
returns bare JS `null` (the raw missed `findOne` result), also leaving the
state unchanged. -/
theorem systemKey_miss_behavior (reg : Registry) (s : TableState) (key : String)
    (id : Option String) (hsys : key ∈ aoijsVars)
    (hcache : cacheGet s.cache (getAKey key id) = JsVal.undef)
    (hmissA : storeFindOne s.store key (getAKey key id) = none)
    (hmissB : storeFindOne s.store key (getBKey key id) = none) :
    (getA reg s key id).ret =
      GetRet.record { key := getAKey key id, value := JsVal.null } ∧
    (getA reg s key id).state = s ∧
    (getB reg s key id).ret = GetRet.nullv ∧ (getB reg s key id).state = s := by
  unfold getA getB
  simp [hsys, hcache, hmissA, hmissB]

/-- Witness for the system-key miss theorem at the concrete input
(table state empty, key "cooldown", no id). -/
theorem systemKey_miss_behavior_witness :
    (getA [] { cache := [], store := [] } "cooldown" none).ret =
      GetRet.record { key := getAKey "cooldown" none, value := JsVal.null } ∧
    (getB [] { cache := [], store := [] } "cooldown" none).ret = GetRet.nullv := by
  have h := systemKey_miss_behavior [] { cache := [], store := [] } "cooldown" none
    (by decide) rfl rfl rfl
  exact ⟨h.1, h.2.2.1⟩

/-- C10: for a non-system key with no cache entry that the variable registry
does not recognize, both variants return `undefined` (a sentinel absence, not
an error and not a default), with no change to cache or store and no effects
at all. -/
theorem unknown_key_signals_absence (reg : Registry) (s : TableState)
    (key : String) (id : Option String) (hsys : key ∉ aoijsVars)
    (hreg : regHas reg key = false)
    (hcache : cacheGet s.cache (getAKey key id) = JsVal.undef) :
    getA reg s key id =
      { ret := GetRet.undef, state := s, storeReads := 0, cacheWrites := 0 } ∧
    getB reg s key id =
      { ret := GetRet.undef, state := s, storeReads := 0, cacheWrites := 0 } := by
  unfold getA getB
  simp [hsys, hreg, hcache]

/-- Witness for the unknown-key theorem at the concrete input
(empty registry, empty state, key "totally_undeclared_key"). -/
theorem unknown_key_signals_absence_witness :
    getA [] { cache := [], store := [] } "totally_undeclared_key" none =
      { ret := GetRet.undef, state := { cache := [], store := [] },
        storeReads := 0, cacheWrites := 0 } ∧
    getB [] { cache := [], store := [] } "totally_undeclared_key" none =
      { ret := GetRet.undef, state := { cache := [], store := [] },
        storeReads := 0, cacheWrites := 0 } :=
  unknown_key_signals_absence [] { cache := [], store := [] }
    "totally_undeclared_key" none (by decide) rfl rfl

/-- C4: in the src/classes/Database.js variant, `drop(table)` with no key
argument empties the whole table cache (and the store), so no stale cached
value can survive; in the src/unnamed/part_000 variant the same call drops
the database but then raises a `TypeError` (`caches` is called as a
function) before any cache eviction, and a subsequent `get` returns the
stale cached value 5 even though the store is empty. -/
theorem drop_table_cache_eviction :
    (∀ s : TableState, dropA s none =
      { error := none, state := { cache := [], store := [] } }) ∧
    dropB { cache := [("points_undefined", JsVal.num 5)],
            store := [("points", [{ key := "points_undefined", value := JsVal.num 5 }])] }
        none =
      { error := some (JsError.typeError "caches is not a function"),
        state := { cache := [("points_undefined", JsVal.num 5)], store := [] } } ∧
    (getB [("points", JsVal.num 0)]
        { cache := [("points_undefined", JsVal.num 5)], store := [] } "points" none).ret =
      GetRet.record { key := "points_undefined", value := JsVal.num 5 } :=
  ⟨fun _ => rfl, rfl, rfl⟩

/-- C5 counterexample: in the src/unnamed/part_000 variant the cache-hit fast
path does not hold — with the cache holding 7 for the composite key of the
system key "cooldown", `get` still reads the document store (one collection
read) and returns the stored 9, not the cached entry. -/
theorem cacheHit_fastPath_fails_variantB :
    cacheGet [("cooldown_undefined", JsVal.num 7)] (getBKey "cooldown" none) =
      JsVal.num 7 ∧
    (getB [] { cache := [("cooldown_undefined", JsVal.num 7)],
               store := [("cooldown",
                 [{ key := "cooldown_undefined", value := JsVal.num 9 }])] }
        "cooldown" none).storeReads = 1 ∧
    (getB [] { cache := [("cooldown_undefined", JsVal.num 7)],
               store := [("cooldown",
                 [{ key := "cooldown_undefined", value := JsVal.num 9 }])] }
        "cooldown" none).ret =
      GetRet.record { key := "cooldown_undefined", value := JsVal.num 9 } ∧
    JsVal.num 9 ≠ JsVal.num 7 :=
  ⟨rfl, rfl, rfl, by decide⟩

/-- C5 (amended): in the src/classes/Database.js variant the cache-hit fast
path holds as claimed (a cache entry for the composite key is returned
immediately with no store access, no cache write and no state change), and
every `get` performs at most one collection read and at most one cache write
and never modifies the persistent store; in the src/unnamed/part_000 variant
every `get` performs at most one collection read, never writes the cache and
never modifies any state, but the cache-hit fast path only applies to
declared non-system keys — system-key reads always access the store. -/
theorem get_cacheHit_fastPath_and_effect_bounds :
    (∀ (reg : Registry) (s : TableState) (key : String) (id : Option String),
      cacheGet s.cache (getAKey key id) ≠ JsVal.undef →
      getA reg s key id =
        { ret := GetRet.record { key := getAKey key id,
                                 value := cacheGet s.cache (getAKey key id) },
          state := s, storeReads := 0, cacheWrites := 0 }) ∧
    (∀ (reg : Registry) (s : TableState) (key : String) (id : Option String),
      (getA reg s key id).storeReads ≤ 1 ∧ (getA reg s key id).cacheWrites ≤ 1 ∧
      (getA reg s key id).state.store = s.store) ∧
    (∀ (reg : Registry) (s : TableState) (key : String) (id : Option String),
      (getB reg s key id).storeReads ≤ 1 ∧ (getB reg s key id).cacheWrites = 0 ∧
      (getB reg s key id).state = s) := by
  refine ⟨fun reg s key id h => ?_, fun reg s key id => ?_, fun reg s key id => ?_⟩
  · have h' : (cacheGet s.cache (getAKey key id) != JsVal.undef) = true :=
      bne_iff_ne.mpr h
    unfold getA
    simp [h']
  · unfold getA
    dsimp only
    repeat' split
    all_goals simp
  · unfold getB
    dsimp only
    repeat' split
    all_goals simp

/-- Witness for the cache-hit fast path at a concrete input: the cache holds
3 for "score", and `get` returns it with zero reads and writes. -/
theorem get_cacheHit_fastPath_witness :
    cacheGet [("score", JsVal.num 3)] (getAKey "score" none) ≠ JsVal.undef ∧
    getA [] { cache := [("score", JsVal.num 3)], store := [] } "score" none =
      { ret := GetRet.record { key := getAKey "score" none,
                               value := cacheGet [("score", JsVal.num 3)]
                                 (getAKey "score" none) },
        state := { cache := [("score", JsVal.num 3)], store := [] },
        storeReads := 0, cacheWrites := 0 } :=
  ⟨by decide,
    get_cacheHit_fastPath_and_effect_bounds.1 []
      { cache := [("score", JsVal.num 3)], store := [] } "score" none (by decide)⟩

/-- C6: `deleteMany(table, predicate)` evicts exactly those cache entries
whose compositeKey-derived key-name (the part before the first underscore) is
registry-declared with a defined default and satisfies the predicate; every
other cache entry — system-key entries, entries of undeclared keys, entries
with an `undefined` default — is kept untouched; and the delete-by-predicate
is issued against every collection of the table. -/
theorem deleteMany_eviction_scope (reg : Registry) (s : TableState) (q : DMQuery) :
    (deleteManyCore reg s q).cache =
      s.cache.filter (fun e => !(dmEvicts reg q e.fst)) ∧
    (deleteManyCore reg s q).store =
      s.store.map (fun c => (c.fst, c.snd.filter (fun d => !(q.docPred d)))) := by
  refine ⟨?_, rfl⟩
  show List.foldl _ s.cache (dmKeysToDelete reg q s.cache) = _
  rw [foldl_cacheDelete]
  exact List.filter_congr (fun e he => by rw [contains_dmKeysToDelete reg q s.cache e he])

/-- C7: `all` loads every document of every collection, keeps those passing
the filter, merges them, sorts by the numeric `value` comparator (ascending
for "asc", descending for "desc"), and truncates the merged result to the
limit (default 100, default "asc"); on the spec's example — collections
`{A: [{x,1}], B: [{y,5}]}`, filter `value > 0`, limit 10, "desc" — it
returns `[{y,5}, {x,1}]`. -/
theorem all_filter_sort_truncate :
    allCore [("A", [{ key := "x", value := JsVal.num 1 }]),
             ("B", [{ key := "y", value := JsVal.num 5 }])]
        (fun d => match d.value with | JsVal.num n => decide (0 < n) | _ => false)
        10 "desc" =
      [{ key := "y", value := JsVal.num 5 }, { key := "x", value := JsVal.num 1 }] ∧
    (∀ (st : Store) (flt : Doc → Bool) (n : Nat) (dir : String),
      (allCore st flt n dir).length ≤ n) ∧
    (∀ (st : Store) (flt : Doc → Bool) (n : Nat),
      List.Chain' (fun a b => descLe a b = true) (allCore st flt n "desc")) ∧
    (∀ (st : Store) (flt : Doc → Bool) (n : Nat),
      List.Chain' (fun a b => ascLe a b = true) (allCore st flt n "asc")) ∧
    (∀ (st : Store) (flt : Doc → Bool), allCore st flt = allCore st flt 100 "asc") := by
  refine ⟨by decide, fun st flt n dir => ?_, fun st flt n => ?_, fun st flt n => ?_,
    fun st flt => rfl⟩
  · unfold allCore
    exact List.length_take_le _ _
  · have h1 : (("desc" : String) == "asc") = false := by decide
    have h2 : (("desc" : String) == "desc") = true := by decide
    unfold allCore
    simp [h1, h2]
    exact (chain'_stableSortBy descLe descLe_total _).take _
  · have h1 : (("asc" : String) == "asc") = true := by decide
    unfold allCore
    simp [h1]
    exact (chain'_stableSortBy ascLe ascLe_total _).take _

/-- C8 counterexample: with `limit = 0` — a perfectly good limit under the
claim's universal quantification — `findMany` performs no truncation at all
(`if (limit)` is falsy), so a one-document collection contributes one
document where the claim's per-collection truncation to `limit = 0` would
force an empty result. -/
theorem findMany_limit_zero_not_truncated :
    findManyCore [("A", [{ key := "x_1", value := JsVal.num 1 }])]
        (fun _ => true) (some 0) =
      [{ key := "x_1", value := JsVal.num 1 }] ∧
    ¬((findManyCore [("A", [{ key := "x_1", value := JsVal.num 1 }])]
        (fun _ => true) (some 0)).length ≤ 0) :=
  ⟨rfl, by decide⟩

/-- C8 (amended): for every truthy (present and nonzero) limit, `findMany`
filters each collection's documents, truncates each collection's contribution
to at most `limit` elements before concatenation (so the result holds at most
`limit` times the number of collections elements); when the limit is absent
or 0, no truncation is applied at all. -/
theorem findMany_per_collection_truncation :
    (∀ (st : Store) (q : Doc → Bool) (n : Nat), n ≠ 0 →
      findManyCore st q (some n) =
        (st.map (fun c => (c.snd.filter q).take n)).flatten ∧
      (findManyCore st q (some n)).length ≤ n * st.length) ∧
    (∀ (st : Store) (q : Doc → Bool),
      findManyCore st q none = (st.map (fun c => c.snd.filter q)).flatten) ∧
    (∀ (st : Store) (q : Doc → Bool),
      findManyCore st q (some 0) = (st.map (fun c => c.snd.filter q)).flatten) := by
  refine ⟨fun st q n hn => ?_, fun st q => ?_, fun st q => ?_⟩
  · have h1 : limitTruthy (some n) = true := by
      unfold limitTruthy
      exact bne_iff_ne.mpr hn
    have he : findManyCore st q (some n) =
        (st.map (fun c => (c.snd.filter q).take n)).flatten := by
      unfold findManyCore
      simp only [h1, if_true, Option.getD_some]
      simpa using foldl_append_eq_flatten (fun c => (c.snd.filter q).take n) st []
    refine ⟨he, ?_⟩
    rw [he, List.length_flatten, List.map_map]
    calc ((st.map (fun c => ((c.snd.filter q).take n).length)).sum : Nat)
        ≤ (st.map (fun c => ((c.snd.filter q).take n).length)).length * n := by
          refine List.sum_le_card_nsmul _ n ?_
          intro x hx
          rcases List.mem_map.mp hx with ⟨c, _, rfl⟩
          exact List.length_take_le _ _
      _ = st.length * n := by rw [List.length_map]
      _ = n * st.length := Nat.mul_comm _ _
  · unfold findManyCore
    simp only [limitTruthy]
    simpa using foldl_append_eq_flatten (fun c => c.snd.filter q) st []
  · unfold findManyCore
    simp only [limitTruthy]
    simpa using foldl_append_eq_flatten (fun c => c.snd.filter q) st []

/-- Witness for the truncation theorem at a concrete input: two collections,
a pass-all predicate and limit 1. -/
theorem findMany_per_collection_truncation_witness :
    (1 : Nat) ≠ 0 ∧
    (findManyCore [("A", [{ key := "a_1", value := JsVal.num 1 },
                          { key := "a_2", value := JsVal.num 2 }]),
                   ("B", [{ key := "b_1", value := JsVal.num 3 }])]
        (fun _ => true) (some 1) =
      (([("A", [{ key := "a_1", value := JsVal.num 1 },
                { key := "a_2", value := JsVal.num 2 }]),
         ("B", [{ key := "b_1", value := JsVal.num 3 }])] : Store).map
        (fun c => (c.snd.filter (fun _ => true)).take 1)).flatten ∧
      (findManyCore [("A", [{ key := "a_1", value := JsVal.num 1 },
                            { key := "a_2", value := JsVal.num 2 }]),
                     ("B", [{ key := "b_1", value := JsVal.num 3 }])]
          (fun _ => true) (some 1)).length ≤
        1 * ([("A", [{ key := "a_1", value := JsVal.num 1 },
                     { key := "a_2", value := JsVal.num 2 }]),
              ("B", [{ key := "b_1", value := JsVal.num 3 }])] : Store).length) :=
  ⟨by decide,
    findMany_per_collection_truncation.1
      [("A", [{ key := "a_1", value := JsVal.num 1 },
              { key := "a_2", value := JsVal.num 2 }]),
       ("B", [{ key := "b_1", value := JsVal.num 3 }])]
      (fun _ => true) 1 (by decide)⟩

end AoiMongo
